import Mathlib

set_option synthInstance.maxSize 1024

/-!
Shallow embedding of the tcml_tools "slurmer" parse core
(src/slurmer/parse/metrics.py, src/slurmer/parse/group.py,
src/tcml_tools/slurmer/parse/parser.py,
src/tcml_tools/slurmer/parse/groupmanager.py).

Modelling conventions:
* Python floats are rationals (`ℚ`); the float NaN is modelled explicitly
  (`Val := Option ℚ` inside numeric arrays, `PyVal.nanV` for scalar values).
  Aggregates propagate NaN the way numpy does (any NaN poisons the result).
* Python dicts are insertion-ordered association lists; `alookup` is key
  lookup, `dictSet` is `d[k] = v`, `dictUpdate` is `d1.update(d2)`.
* Exceptions are `Except PyErr`; an `assert cond, msg` that fails raises
  `PyErr.assertionError msg`.
* numpy 2-D arrays are `List (List Val)` (axis 0 = rows/jobs, axis 1 = time).
-/

abbrev Val := Option ℚ

/-- A Python scalar as it occurs in `Result.value` and in group params:
an int, a (non-NaN) float, the float NaN, or a string. -/
inductive PyVal where
  | intV (n : ℤ)
  | floatV (q : ℚ)
  | nanV
  | strV (s : String)
  deriving DecidableEq, Repr

/-- Python exceptions raised by the modelled code. -/
inductive PyErr where
  | assertionError (msg : String)
  | keyError (msg : String)
  | attributeError (msg : String)
  deriving DecidableEq, Repr

instance {ε α : Type} [DecidableEq ε] [DecidableEq α] : DecidableEq (Except ε α) :=
  fun x y =>
    match x, y with
    | .ok a, .ok b =>
        if h : a = b then .isTrue (by rw [h])
        else .isFalse (by intro hc; cases hc; exact h rfl)
    | .ok _, .error _ => .isFalse (by intro hc; cases hc)
    | .error _, .ok _ => .isFalse (by intro hc; cases hc)
    | .error e, .error f =>
        if h : e = f then .isTrue (by rw [h])
        else .isFalse (by intro hc; cases hc; exact h rfl)

/-- Python `isinstance(v, str)` on a modelled value. -/
def PyVal.isStr : PyVal → Bool
  | .strV _ => true
  | _ => false

/-- Python `a < b` for the numeric values reached by `Result.__lt__` after
its isinstance-checks (ints/floats compare by value, NaN comparisons are
false).  String operands never reach this point in `Result.__lt__`. -/
def pyValLt : PyVal → PyVal → Bool
  | .intV a, .intV b => a < b
  | .intV a, .floatV b => (a : ℚ) < b
  | .floatV a, .intV b => a < (b : ℚ)
  | .floatV a, .floatV b => a < b
  | _, _ => false

/-- Python `a == b` for the values reached by `Result.__eq__` after its
isinstance-checks (NaN is equal to nothing, a str never equals a number). -/
def pyValEq : PyVal → PyVal → Bool
  | .intV a, .intV b => a = b
  | .intV a, .floatV b => (a : ℚ) = b
  | .floatV a, .intV b => a = (b : ℚ)
  | .floatV a, .floatV b => a = b
  | .strV a, .strV b => a = b
  | _, _ => false

/-- metrics.py `Result`: a result value paired with float accuracy for
string representation (`fp_str` is kept as the accuracy `float_acc`). -/
structure Result where
  name : String
  value : PyVal
  float_acc : Nat
  deriving DecidableEq, Repr

/-- metrics.py `Result.__lt__` (lines 21-28), for a non-None other:
a string value makes self "less", a string other makes self "not less",
otherwise the values are compared numerically. -/
def resultLt (a b : Result) : Bool :=
  if a.value.isStr then true
  else if b.value.isStr then false
  else pyValLt a.value b.value

/-- metrics.py `Result.__eq__` (lines 30-35), for a non-None other:
two string values are always equal, otherwise the values are compared. -/
def resultEq (a b : Result) : Bool :=
  if a.value.isStr && b.value.isStr then true
  else pyValEq a.value b.value

/-- group.py line 60: `max([result, self.results.get(result.name)])`.
CPython's `max` starts from the first element and replaces it only when a
later element compares strictly greater; `old > new` resolves to
`new.__lt__(old)` (Result defines no `__gt__`), and `None > new` is false
because the reflected `new.__lt__(None)` returns False. -/
def maxPair (new : Result) (old : Option Result) : Result :=
  match old with
  | none => new
  | some o => if resultLt new o then o else new

section Dicts

variable {κ β : Type} [DecidableEq κ]

/-- Key lookup in an insertion-ordered association list (Python `d.get(k)` /
`d[k]`); the first matching entry wins. -/
def alookup (k : κ) : List (κ × β) → Option β
  | [] => none
  | p :: t => if p.1 = k then some p.2 else alookup k t

/-- Python `d[k] = v`: replace the value in place if the key exists
(keeping its position), otherwise append the new entry. -/
def dictSet (k : κ) (v : β) : List (κ × β) → List (κ × β)
  | [] => [(k, v)]
  | p :: t => if p.1 = k then (k, v) :: t else p :: dictSet k v t

/-- Python `d1.update(d2)`: keys of `d1` keep their position but take the
value from `d2` when present there; keys only in `d2` are appended in
`d2`'s order. -/
def dictUpdate (d1 d2 : List (κ × β)) : List (κ × β) :=
  d1.map (fun p => (p.1, (alookup p.1 d2).getD p.2))
    ++ d2.filter (fun p => (alookup p.1 d1).isNone)

theorem alookup_append (k : κ) (l1 l2 : List (κ × β)) :
    alookup k (l1 ++ l2) = (alookup k l1).or (alookup k l2) := by
  induction l1 with
  | nil => simp [alookup]
  | cons p t ih =>
      by_cases h : p.1 = k <;> simp [alookup, h, ih, Option.or]

theorem alookup_map_value (k : κ) (l : List (κ × β)) (f : κ × β → β) :
    alookup k (l.map (fun p => (p.1, f p)))
      = (l.find? (fun p => p.1 = k)).map f := by
  induction l with
  | nil => simp [alookup]
  | cons p t ih =>
      by_cases h : p.1 = k <;>
        simp [alookup, List.find?, h, ih]

theorem alookup_eq_find? (k : κ) (l : List (κ × β)) :
    alookup k l = (l.find? (fun p => p.1 = k)).map Prod.snd := by
  induction l with
  | nil => simp [alookup]
  | cons p t ih =>
      by_cases h : p.1 = k <;> simp [alookup, List.find?, h, ih]

theorem alookup_filter_key (k : κ) (l : List (κ × β)) (P : κ → Bool) :
    alookup k (l.filter (fun p => P p.1))
      = if P k then alookup k l else none := by
  induction l with
  | nil => simp [alookup]
  | cons p t ih =>
      by_cases h : p.1 = k
      · subst h
        by_cases hp : P p.1 <;> simp [alookup, List.filter, hp, ih]
      · by_cases hp : P p.1 <;> simp [alookup, List.filter, hp, ih, h]

/-- The lookup law of `d1.update(d2)`: the value from `d2` wins, falling
back to `d1`. -/
theorem alookup_dictUpdate (k : κ) (d1 d2 : List (κ × β)) :
    alookup k (dictUpdate d1 d2) = (alookup k d2).or (alookup k d1) := by
  unfold dictUpdate
  rw [alookup_append, alookup_map_value,
      alookup_filter_key k d2 (fun k' => (alookup k' d1).isNone)]
  rcases hf : d1.find? (fun p => p.1 = k) with _ | p
  · have h1 : alookup k d1 = none := by
      rw [alookup_eq_find?, hf]; rfl
    rw [hf, h1]
    rcases h2 : alookup k d2 with _ | v2 <;> rfl
  · have hk : p.1 = k := by
      have := List.find?_some hf
      exact of_decide_eq_true this
    have h1 : alookup k d1 = some p.2 := by
      rw [alookup_eq_find?, hf]; rfl
    subst hk
    rw [hf, h1]
    rcases h2 : alookup p.1 d2 with _ | v2 <;>
      (simp only [Option.map_some']; rw [h2]; rfl)

end Dicts

/-! ### numpy helpers over `List (List Val)` arrays -/

/-- Turns a list of floats into `some` list of rationals, or `none` as soon
as one entry is NaN (numpy aggregates return NaN on NaN input). -/
def allSome : List Val → Option (List ℚ)
  | [] => some []
  | none :: _ => none
  | some q :: t => (allSome t).map (fun l => q :: l)

def qSum (l : List ℚ) : ℚ := l.foldl (· + ·) 0

def qInsertLe (x : ℚ) : List ℚ → List ℚ
  | [] => [x]
  | y :: t => if x ≤ y then x :: y :: t else y :: qInsertLe x t

/-- Ascending insertion sort on rationals (for the median). -/
def qSort (l : List ℚ) : List ℚ := l.foldr qInsertLe []

/-- Model of `np.mean` of a flat float list: NaN on NaN input and on an empty
input (numpy warns and returns NaN there). -/
def listMean (l : List Val) : PyVal :=
  match allSome l with
  | none => .nanV
  | some [] => .nanV
  | some qs => .floatV (qSum qs / qs.length)

/-- Model of `np.median` of a flat float list: sort, middle element (odd length) or
mean of the two middle elements (even length); NaN on NaN/empty input. -/
def listMedian (l : List Val) : PyVal :=
  match allSome l with
  | none => .nanV
  | some [] => .nanV
  | some qs =>
      let s := qSort qs
      let n := s.length
      if n % 2 = 1 then .floatV (s.getD (n / 2) 0)
      else .floatV ((s.getD (n / 2 - 1) 0 + s.getD (n / 2) 0) / 2)

/-- Greatest element of a nonempty rational list. -/
def qListMax : List ℚ → ℚ
  | [] => 0
  | h :: t => t.foldl max h

/-- Least element of a nonempty rational list. -/
def qListMin : List ℚ → ℚ
  | [] => 0
  | h :: t => t.foldl min h

/-- Model of `np.max` over a whole array (flattened): NaN wins; the empty case
(where numpy raises) is returned as NaN and is never reached by the
claims, which use nonempty arrays. -/
def npMax (rows : List (List Val)) : PyVal :=
  match allSome rows.flatten with
  | none => .nanV
  | some [] => .nanV
  | some qs => .floatV (qListMax qs)

/-- Model of `np.min` over a whole array (flattened), same conventions as `npMax`. -/
def npMin (rows : List (List Val)) : PyVal :=
  match allSome rows.flatten with
  | none => .nanV
  | some [] => .nanV
  | some qs => .floatV (qListMin qs)

def npMean (rows : List (List Val)) : PyVal := listMean rows.flatten

def npMedian (rows : List (List Val)) : PyVal := listMedian rows.flatten

/-- One row of `np.max(v, axis=1)`: per-row maximum, NaN-poisoned. -/
def rowMaxV (r : List Val) : Val :=
  match allSome r with
  | none => none
  | some [] => none
  | some qs => some (qListMax qs)

def rowMinV (r : List Val) : Val :=
  match allSome r with
  | none => none
  | some [] => none
  | some qs => some (qListMin qs)

/-- Model of `np.mean(np.max(v, axis=1), axis=0)`. -/
def npMaxAvg (rows : List (List Val)) : PyVal := listMean (rows.map rowMaxV)

/-- Model of `np.mean(np.min(v, axis=1), axis=0)`. -/
def npMinAvg (rows : List (List Val)) : PyVal := listMean (rows.map rowMinV)

/-! ### metrics.py `Metrics` -/

/-- Python slice `row[:k]` for `k : Option Nat`; `row[:None]` is the whole
row (this is what `values[:, :self.first_k]` does on axis 1). -/
def pySliceFirst (k : Option Nat) (r : List Val) : List Val :=
  match k with
  | none => r
  | some k => r.take k

/-- Python slice `row[-k:]` for a nonnegative `k`; `row[-0:]` is the whole
row (this is what `values[:, -self.last_k:]` does on axis 1). -/
def pySliceLast (k : Nat) (r : List Val) : List Val :=
  if k = 0 then r else r.drop (r.length - k)

/-- metrics.py `Metrics.__init__` fields.  `name` is already resolved
(`name if isinstance(name, str) else key`); the constructor's
`assert (first_k is None) or (last_k is None)` appears as a hypothesis of
the theorems that need it.  The `std` flag is omitted: its value
`np.std(...)` is an irrational square root, outside this rational model,
and no claim mentions it. -/
structure Metrics where
  key : String
  name : String
  not_available_value : Option String := none
  first_k : Option Nat := none
  last_k : Option Nat := none
  float_acc : Nat := 2
  replace_nan : Option ℚ := none
  avg : Bool := false
  med : Bool := false
  max_avg : Bool := false
  min_avg : Bool := false
  max : Bool := false
  min : Bool := false
  deriving DecidableEq, Repr

/-- metrics.py lines 92-96, the array preprocessing of `from_values`:
`v = values[:, :self.first_k] if self.last_k is not None else values`,
`v = v[:, -self.last_k:] if self.last_k is not None else v`, then
`np.nan_to_num(v, nan=self.replace_nan)` when `replace_nan` is set.
Note that BOTH slice lines are guarded by `self.last_k is not None`,
exactly as in the source. -/
def Metrics.preprocess (m : Metrics) (values : List (List Val)) : List (List Val) :=
  let v := if m.last_k.isSome then values.map (pySliceFirst m.first_k) else values
  let v := match m.last_k with
    | some k => v.map (pySliceLast k)
    | none => v
  match m.replace_nan with
  | some c => v.map (List.map (fun x => some (x.getD c)))
  | none => v

/-- The `results` list built in metrics.py lines 104-140 (std omitted, see
`Metrics`): one `Result` per enabled flag, named `"<name> <aggregate>"`,
whose value is `not_available_value` when the array is absent and the
aggregate of `v` otherwise. -/
def Metrics.results_of (m : Metrics) (v : Option (List (List Val))) : List Result :=
  let value := fun (f : List (List Val) → PyVal) =>
    match v with
    | none => PyVal.strV (m.not_available_value.getD "")
    | some arr => f arr
  (if m.avg then [⟨m.name ++ " avg", value npMean, m.float_acc⟩] else [])
    ++ (if m.med then [⟨m.name ++ " med", value npMedian, m.float_acc⟩] else [])
    ++ (if m.max_avg then [⟨m.name ++ " max_avg", value npMaxAvg, m.float_acc⟩] else [])
    ++ (if m.min_avg then [⟨m.name ++ " min_avg", value npMinAvg, m.float_acc⟩] else [])
    ++ (if m.max then [⟨m.name ++ " max", value npMax, m.float_acc⟩] else [])
    ++ (if m.min then [⟨m.name ++ " min", value npMin, m.float_acc⟩] else [])

/-- metrics.py `Metrics.from_values` (lines 85-140): on an array, apply the
preprocessing and aggregate; on `None`, `assert self.not_available_value is
not None` (an `AssertionError`, not a `KeyError`) and emit the fallback
string results. -/
def Metrics.from_values (m : Metrics) (values : Option (List (List Val))) :
    Except PyErr (List Result) :=
  match values with
  | some arr => .ok (m.results_of (some (m.preprocess arr)))
  | none =>
      match m.not_available_value with
      | some _ => .ok (m.results_of none)
      | none => .error (.assertionError
          ("(" ++ m.key ++ " | " ++ m.name ++
            ") Can not calc metrics (None array) and no not_available_value"))

/-! ### group.py `Group` -/

/-- A tensorboard sample triplet `(wall_time, step, value)`. -/
abbrev TbEvent := ℚ × ℚ × Val

/-- One job's parsed scalar log: metric key → list of triplets. -/
abbrev Events := List (String × List TbEvent)

/-- Python `str([i1, i2, ...])` for a list of ints. -/
def pyIntListStr (l : List ℤ) : String :=
  "[" ++ String.intercalate ", " (l.map toString) ++ "]"

/-- Adding a key to one of the class-level `OrderedDict` registries
(`Group.all_param_keys[k] = True` / `Group.all_result_keys[k] = True`):
insertion-ordered, first insertion wins the position. -/
def regAdd (reg : List String) (k : String) : List String :=
  if reg.contains k then reg else reg ++ [k]

/-- group.py `Group` (and its `GroupSeparator` subclass, tagged by
`isSep`).  The class-level registries `all_param_keys`/`all_result_keys`
are modelled as explicit `List String` values passed alongside. -/
structure SGroup where
  name : String
  ids : List ℤ
  params : List (String × PyVal)
  data : List (ℤ × Events) := []
  results : List (String × Result) := []
  isSep : Bool := false
  deriving DecidableEq, Repr

/-- group.py `Group.merge` (lines 38-43): extend `ids`, then
`dict.update` of `params`, `data` and `results` — the merged-in group's
values overwrite the receiver's on key collisions. -/
def SGroup.merge (g other : SGroup) : SGroup :=
  { g with
    ids := g.ids ++ other.ids,
    params := dictUpdate g.params other.params,
    data := dictUpdate g.data other.data,
    results := dictUpdate g.results other.results }

/-- group.py `Group.update_data` (lines 51-53): `self.data[id_].update(data)`
on a `defaultdict(dict)` (the entry is created when absent). -/
def SGroup.update_data (g : SGroup) (id_ : ℤ) (d : Events) : SGroup :=
  { g with data := dictSet id_ (dictUpdate ((alookup id_ g.data).getD []) d) g.data }

/-- group.py `Group.update_all_data` (lines 45-49): for each member id
present in the supplied dict, merge that job's events into `self.data`. -/
def SGroup.update_all_data (g : SGroup) (events : List (ℤ × Events)) : SGroup :=
  g.ids.foldl (fun g' id_ =>
    match alookup id_ events with
    | none => g'
    | some ev => g'.update_data id_ ev) g

/-- Model of `np.array([v[2] for v in data.get(key)])`: the value component of each
triplet. -/
def seriesVals (s : List TbEvent) : List Val := s.map (fun t => t.2.2)

/-- One contributed row of `Group._values`: the value components, cut to
the last `last_k` samples when `last_k` is an int > 0 (`v = v[-last_k:]`,
group.py lines 77-78). -/
def valuesRow (last_k : Option Nat) (series : List TbEvent) : List Val :=
  let v := seriesVals series
  match last_k with
  | some k => if 0 < k then v.drop (v.length - k) else v
  | none => v

/-- The body of the `for id_, data in self.data.items()` loop of
`Group._values` (lines 72-79), accumulating rows and missing ids. -/
def valuesStep (key : String) (last_k : Option Nat)
    (acc : List (List Val) × List ℤ) (e : ℤ × Events) : List (List Val) × List ℤ :=
  match alookup key e.2 with
  | none => (acc.1, acc.2 ++ [e.1])
  | some series => (acc.1 ++ [valuesRow last_k series], acc.2)

/-- group.py `Group._values` (lines 65-83): walk `self.data` in insertion
order; ids whose entry lacks `key` go to `missing`, the others contribute
their value series (cut to the last `last_k` samples when `last_k` is an
int > 0).  The assert on equal row lengths raises; an empty row set
yields `None`. -/
def SGroup._values (g : SGroup) (key : String) (last_k : Option Nat) :
    Except PyErr (Option (List (List Val)) × List ℤ) :=
  let acc := g.data.foldl (valuesStep key last_k) ([], [])
  if acc.1.all (fun v => v.length = (acc.1.headD []).length) then
    .ok ((if 0 < acc.1.length then some acc.1 else none), acc.2)
  else
    .error (.assertionError ("different value-array lengths for key=" ++ key))

/-- The body of the `for m in metrics` loop of group.py
`Group.update_results` (lines 55-63), threading the partially mutated
group and result-key registry; the first exception stops the loop and is
returned alongside the state reached so far (Python mutates in place, so
earlier assignments survive the raise).  The `except KeyError` handler
rewraps only a `KeyError` into the descriptive message naming the metric
key and the missing ids; an `AssertionError` from `from_values` or
`_values` propagates unchanged. -/
def updateResultsLoop (g : SGroup) (reg : List String) :
    List Metrics → SGroup × List String × Option PyErr
  | [] => (g, reg, none)
  | m :: rest =>
      match g._values m.key m.last_k with
      | .error e => (g, reg, some e)
      | .ok (vals, missing) =>
          match m.from_values vals with
          | .error e =>
              match e with
              | .keyError _ =>
                  (g, reg, some (.keyError ("Missing key \"" ++ m.key ++ "\" in: "
                    ++ pyIntListStr missing ++ ", but the metric requires it")))
              | _ => (g, reg, some e)
          | .ok results =>
              let gr := results.foldl (fun (p : SGroup × List String) r =>
                  ({ p.1 with
                      results := dictSet r.name (maxPair r (alookup r.name p.1.results)) p.1.results },
                   regAdd p.2 r.name)) (g, reg)
              updateResultsLoop gr.1 gr.2 rest

/-- group.py `Group.update_results`; `GroupSeparator` overrides it with
`pass` (line 135-136). -/
def SGroup.update_results (g : SGroup) (reg : List String) (ms : List Metrics) :
    SGroup × List String × Option PyErr :=
  if g.isSep then (g, reg, none) else updateResultsLoop g reg ms

/-! ### Python string formatting -/

/-- Decimal digits of a fractional part `0 ≤ f < 1`, with fuel; used by
`pyFloatStr` for floats whose value has a finite decimal expansion. -/
def fracDigitsAux : Nat → ℚ → String
  | 0, _ => ""
  | fuel + 1, f =>
      if f = 0 then ""
      else
        let d : ℤ := ⌊f * 10⌋
        toString d ++ fracDigitsAux fuel (f * 10 - (d : ℚ))

/-- Python `str(x)` for a float `x` whose value has a finite decimal
expansion (CPython prints the shortest decimal that round-trips; for a
decimally exact value that is the exact expansion, with `.0` appended to
integral floats). -/
def pyFloatStr (q : ℚ) : String :=
  let sign := if q < 0 then "-" else ""
  let a := |q|
  let ip : ℤ := ⌊a⌋
  let ds := fracDigitsAux 17 (a - (ip : ℚ))
  sign ++ toString ip ++ "." ++ (if ds = "" then "0" else ds)

/-- Python `str(v)` of a modelled scalar. -/
def pyStr : PyVal → String
  | .intV n => toString n
  | .floatV q => pyFloatStr q
  | .nanV => "nan"
  | .strV s => s

/-- Round-half-even to an integer, as C `%f` formatting does on the
decimal digit stream. -/
def roundHalfEven (q : ℚ) : ℤ :=
  let fl := ⌊q⌋
  let r := q - (fl : ℚ)
  if r < 1 / 2 then fl
  else if 1 / 2 < r then fl + 1
  else if fl % 2 = 0 then fl else fl + 1

/-- Left-pad a digit string with zeros to the given width. -/
def padZeros (width : Nat) (s : String) : String :=
  String.mk (List.replicate (width - s.length) '0') ++ s

/-- Python `('%.<acc>f' % q)` for a nonnegative decimal-exact float
(the claims only format such values): fixed `acc` digits after the
point, no point at all when `acc = 0`. -/
def fpFormat (acc : Nat) (q : ℚ) : String :=
  let n := roundHalfEven (q * (10 : ℚ) ^ acc)
  let m := n.natAbs
  let sign := if n < 0 then "-" else ""
  if acc = 0 then sign ++ toString m
  else sign ++ toString (m / 10 ^ acc) ++ "." ++ padZeros acc (toString (m % 10 ^ acc))

/-- metrics.py `Result.str` (lines 15-19): a string value verbatim,
otherwise `self.fp_str % self.value` (NaN formats as "nan"). -/
def Result.str (r : Result) : String :=
  match r.value with
  | .strV s => s
  | .intV n => fpFormat r.float_acc (n : ℚ)
  | .floatV q => fpFormat r.float_acc q
  | .nanV => "nan"

/-! ### group.py table rendering -/

/-- group.py `Group.__filter` (lines 25-31) applied to a key registry:
copy, then pop every ignore key (order of the survivors preserved). -/
def filterKeys (reg ignore : List String) : List String :=
  reg.filter (fun k => !(ignore.contains k))

/-- The `params` field of group.py `Group.__table_dict` (line 103):
`str(self.params.get(k, ''))` per registered parameter key. -/
def SGroup.tableParams (g : SGroup) (paramReg ignore : List String) : List String :=
  (filterKeys paramReg ignore).map (fun k =>
    match alookup k g.params with
    | some v => pyStr v
    | none => "")

/-- The `values` field of group.py `Group.__table_dict` (line 104):
`self.results.get(k).str` per registered result key — `.get` without a
default, so a key this group never computed makes Python dereference
`None.str` and raise an `AttributeError`. -/
def tableValuesAux (results : List (String × Result)) :
    List String → Except PyErr (List String)
  | [] => .ok []
  | k :: t =>
      match alookup k results with
      | some r => (tableValuesAux results t).map (fun vs => r.str :: vs)
      | none => .error (.attributeError "NoneType object has no attribute str")

def SGroup.tableValues (g : SGroup) (resultReg ignore : List String) :
    Except PyErr (List String) :=
  tableValuesAux g.results (filterKeys resultReg ignore)

/-- group.py `Group.get_csv_str_header` (lines 107-109) with the
registries passed explicitly: `'{n};{ids};;{params};;{values};'` over
`__header_dict`. -/
def SGroup.get_csv_str_header (paramReg resultReg ignore : List String) : String :=
  "name" ++ ";" ++ "slurm_ids" ++ ";;"
    ++ String.intercalate ";" (filterKeys paramReg ignore) ++ ";;"
    ++ String.intercalate ";" (filterKeys resultReg ignore) ++ ";"

/-- group.py `Group.get_csv_str` (lines 111-113):
`'{n};{ids};;{params};;{values};'` over `__table_dict`; `GroupSeparator`
overrides it to the empty string (lines 138-140). -/
def SGroup.get_csv_str (g : SGroup) (paramReg resultReg ignore : List String) :
    Except PyErr String :=
  if g.isSep then .ok "" else
    (g.tableValues resultReg ignore).map (fun vs =>
      g.name ++ ";" ++ pyIntListStr g.ids ++ ";;"
        ++ String.intercalate ";" (g.tableParams paramReg ignore) ++ ";;"
        ++ String.intercalate ";" vs ++ ";")

/-! ### parser.py `TbParser.parse_ids` -/

/-- parser.py `TbParser.parse_ids` (lines 33-55).  `paths` models the
result of `list_paths` (job id → located tensorboard file paths);
`reader` models `read_events_files` for one job (it never raises: parse
failures inside it are caught and printed, yielding fewer events).  An
empty id list returns `{}` before any pool work; otherwise every id whose
path lookup failed is collected and, if any, the assert raises naming
all of them; else one reader task per id runs and the results are merged
into a dict keyed by id. -/
def parse_ids (reader : ℤ → List String → Events) (paths : List (ℤ × List String))
    (ids : List ℤ) : Except PyErr (List (ℤ × Events)) :=
  if ids.length = 0 then .ok []
  else
    let failed := ids.filter (fun i => (alookup i paths).isNone)
    if failed.length = 0 then
      .ok (ids.map (fun i => (i, reader i ((alookup i paths).getD []))))
    else
      .error (.assertionError
        ("Can not find files to parse for slurm ids: " ++ pyIntListStr failed))

/-! ### groupmanager.py `GroupManager` -/

/-- The id collection loop of `GroupManager.update_groups` (lines 203-205):
`ids.extend(group.ids)` over all groups (separators have empty `ids`). -/
def gmAllIds (groups : List SGroup) : List ℤ :=
  groups.foldl (fun acc g => acc ++ g.ids) []

/-- The `force` filter of `GroupManager.update_groups` (lines 208-214):
when `force` is false keep only ids whose cached events dict is empty
(`len(events.get(id_, {})) == 0`). -/
def newIds (force : Bool) (cache : List (ℤ × Events)) (ids : List ℤ) : List ℤ :=
  if force then ids
  else ids.filter (fun i => ((alookup i cache).getD []).length = 0)

/-- One cache round of `GroupManager.update_groups` (lines 203-218) with a
total reader (every id locatable): the ids actually handed to the
external reader, and the cache after `update_events` merges the parsed
events in.  The first component is the reader-invocation trace — empty
means `parse_ids` returned before creating any pool task. -/
def updateStepCache (reader : ℤ → Events) (force : Bool)
    (cache : List (ℤ × Events)) (ids : List ℤ) : List ℤ × List (ℤ × Events) :=
  let sel := newIds force cache ids
  (sel, dictUpdate cache (sel.map (fun i => (i, reader i))))

/-- groupmanager.py line 28: `Result(name="__gm_empty__", value="N/A",
float_acc=0)`, the sort key of a group lacking the sort result. -/
def gmEmptyResult : Result := ⟨"__gm_empty__", .strV "N/A", 0⟩

/-- The sort key `g.results.get(sort_by, self.empty_result)` (line 249). -/
def sortKeyOf (sort_by : String) (g : SGroup) : Result :=
  (alookup sort_by g.results).getD gmEmptyResult

/-- The comparison driving `sorted(..., key=...)`: a stable sort keeps `a`
before `b` unless `b`'s key is strictly `__lt__`-below `a`'s. -/
def groupLe (sort_by : String) (a b : SGroup) : Bool :=
  !(resultLt (sortKeyOf sort_by b) (sortKeyOf sort_by a))

/-- Stable insertion of `x` into `l`: `x` goes before the first element
`y` with `le x y` (i.e. strictly after every earlier element it does not
precede). -/
def pyInsert (le : SGroup → SGroup → Bool) (x : SGroup) : List SGroup → List SGroup
  | [] => [x]
  | y :: t => if le x y then x :: y :: t else y :: pyInsert le x t

/-- Model of CPython's stable `sorted`: a stable insertion sort.  All
stable sorts agree whenever the key comparison is a strict weak order;
on the degenerate string-vs-string comparisons of `Result.__lt__` the
theorems below only use block-level placement, on which every
left-to-right stable scheme agrees. -/
def pySortStable (le : SGroup → SGroup → Bool) (l : List SGroup) : List SGroup :=
  l.foldr (pyInsert le) []

/-- Python `sorted(l, key=..., reverse=True)` is implemented by CPython as
reverse, sort ascending, reverse (preserving stability). -/
def pySorted (le : SGroup → SGroup → Bool) (descending : Bool)
    (l : List SGroup) : List SGroup :=
  if descending then (pySortStable le l.reverse).reverse else pySortStable le l

/-- The separator-collapsing loop of `GroupManager.sorted_results`
(lines 250-257): the carried flag is the previous element's
`isinstance(_, GroupSeparator)`, whether or not it was kept. -/
def collapseSeps (prev : Bool) : List SGroup → List SGroup
  | [] => []
  | g :: rest =>
      if prev && g.isSep then collapseSeps g.isSep rest
      else g :: collapseSeps g.isSep rest

/-- groupmanager.py `GroupManager.sorted_results` (lines 246-258): sort
all groups (separators included) by the named result when `sort_by` is
nonempty, then drop every separator that immediately follows another. -/
def sorted_results (sort_by : String) (descending : Bool)
    (no_consecutive_separators : Bool) (groups : List SGroup) : List SGroup :=
  let r := if 0 < sort_by.length then pySorted (groupLe sort_by) descending groups
           else groups
  if no_consecutive_separators then collapseSeps false r else r

/-- Sort rank of a group under `sorted_results`: string/sentinel keys
(separators and groups missing the result included) are the bottom
element, numeric keys embed at their value.  NaN keys are also sent to
bottom; the ordering theorems assume no NaN keys, since float NaN makes
every comparison false and Python's sort order is then meaningless. -/
def keyRank (sort_by : String) (g : SGroup) : WithBot ℚ :=
  match (sortKeyOf sort_by g).value with
  | .strV _ => ⊥
  | .nanV => ⊥
  | .intV n => ((n : ℚ) : WithBot ℚ)
  | .floatV q => (q : WithBot ℚ)

/-! ### Concrete formatting evaluations -/

theorem fracDigitsAux_tenth : fracDigitsAux 17 ((1:ℚ)/10) = "1" := by
  have h17 : (17:ℕ) = 16+1 := rfl
  rw [h17, fracDigitsAux]
  rw [if_neg (by norm_num)]
  have hfl : ⌊(1:ℚ)/10 * 10⌋ = 1 := by norm_num
  rw [hfl]
  dsimp only
  have harg : (1:ℚ)/10 * 10 - ((1:ℤ):ℚ) = 0 := by norm_num
  rw [harg]
  have h16 : (16:ℕ) = 15+1 := rfl
  rw [h16, fracDigitsAux, if_pos rfl]
  rfl

theorem pyFloatStr_tenth : pyFloatStr ((1:ℚ)/10) = "0.1" := by
  unfold pyFloatStr
  rw [if_neg (by norm_num)]
  have habs : |(1:ℚ)/10| = 1/10 := abs_of_nonneg (by norm_num)
  dsimp only
  rw [habs]
  have hfl : ⌊(1:ℚ)/10⌋ = 0 := by norm_num
  rw [hfl]
  have harg : (1:ℚ)/10 - ((0:ℤ):ℚ) = 1/10 := by norm_num
  rw [harg, fracDigitsAux_tenth]
  rfl

theorem fpFormat_five : fpFormat 2 5 = "5.00" := by
  unfold fpFormat roundHalfEven
  have h : (5:ℚ) * (10:ℚ)^(2:ℕ) = 500 := by norm_num
  rw [h]
  have hfl : ⌊(500:ℚ)⌋ = 500 := by norm_num
  rw [hfl]
  dsimp only
  rw [if_pos (show (500:ℚ) - ((500:ℤ):ℚ) < 1/2 by norm_num)]
  rfl

/-! ### Claims -/

/-- C1: the claim says a `first_k` metric spec clips the array along axis 1
to the first k samples before computing any aggregate.  The code guards the
`first_k` slice with `self.last_k is not None` (metrics.py line 93), so with
`first_k = 1` and `last_k = None` nothing is clipped: on the 1×2 array
[[1, 2]] the aggregates see both samples, and `avg` comes out 3/2 instead
of the claimed 1. -/
theorem C1_first_k_not_clipped :
    Metrics.preprocess
      { key := "m", name := "m", first_k := some 1, avg := true }
      [[some 1, some 2]] = [[some 1, some 2]]
    ∧ Metrics.from_values
        { key := "m", name := "m", first_k := some 1, avg := true }
        (some [[some 1, some 2]])
      = .ok [⟨"m avg", .floatV (3/2), 2⟩] := by
  constructor
  · rfl
  · have key : Metrics.from_values
        { key := "m", name := "m", first_k := some 1, avg := true }
        (some [[some 1, some 2]])
        = .ok [⟨"m avg", .floatV (qSum [1, 2] / ((2:ℕ):ℚ)), 2⟩] := rfl
    have hval : qSum [(1:ℚ), 2] / ((2:ℕ):ℚ) = 3/2 := by norm_num [qSum]
    rw [hval] at key
    exact key

/-- C2: the claim says a required metric key missing across the group is
reported by a catchable error naming the key and the missing job ids.  On
the group with parsed-but-keyless data for job 1 and the required metric
"acc", `_values` returns `(None, [1])` and `from_values` raises an
`AssertionError` that names only the key and display name — NOT the
missing ids; the `except KeyError` handler of `update_results` (which
would name them) never fires because no `KeyError` is raised.  The
returned group still carries its pre-call (empty) results, so
already-computed state is unchanged. -/
theorem C2_missing_key_raises_bare_assertion :
    SGroup.update_results
      { name := "g", ids := [1], params := [], data := [(1, [])] }
      [] [{ key := "acc", name := "acc", avg := true }]
      = ({ name := "g", ids := [1], params := [], data := [(1, [])] }, [],
          some (.assertionError
            "(acc | acc) Can not calc metrics (None array) and no not_available_value")) := by
  rfl

/-- C3 counterexample: merging group A (ids=[1,2], mu=1) into group B
(ids=[3], mu=2) yields ids [3,1,2] as claimed, but the `mu` lookup after
the merge returns A's value 1 — `dict.update` lets the merged-in group
win, not the receiver as the claim states. -/
theorem C3_receiver_param_loses :
    (SGroup.merge
        { name := "B", ids := [3], params := [("mu", .intV 2)] }
        { name := "A", ids := [1, 2], params := [("mu", .intV 1)] }).ids = [3, 1, 2]
    ∧ alookup "mu"
        (SGroup.merge
          { name := "B", ids := [3], params := [("mu", .intV 2)] }
          { name := "A", ids := [1, 2], params := [("mu", .intV 1)] }).params
      = some (.intV 1) := by
  constructor <;> rfl

/-- C3 amended: `B.merge(A)` concatenates the ids in insertion order
(`B.ids ++ A.ids`), and on every key of `params` or `results` the
merged-in group A's value wins over B's pre-merge value (falling back to
B's only where A has no entry). -/
theorem C3_merge_ids_and_overlay : ∀ b a : SGroup,
    (b.merge a).ids = b.ids ++ a.ids
    ∧ (∀ k, alookup k (b.merge a).params = (alookup k a.params).or (alookup k b.params))
    ∧ (∀ k, alookup k (b.merge a).results = (alookup k a.results).or (alookup k b.results)) := by
  intro b a
  exact ⟨rfl,
    fun k => alookup_dictUpdate k b.params a.params,
    fun k => alookup_dictUpdate k b.results a.results⟩

/-- C5 counterexample: two string-valued Results are each strictly
`__lt__`-below the other (metrics.py line 24-25 returns True whenever
self's value is a string, even against another string), contradicting the
claim that two string results are not strictly less than each other. -/
theorem C5_strings_mutually_lt :
    resultLt ⟨"a", .strV "x", 2⟩ ⟨"b", .strV "y", 2⟩ = true
    ∧ resultLt ⟨"b", .strV "y", 2⟩ ⟨"a", .strV "x", 2⟩ = true := by
  constructor <;> rfl

/-- C5 amended: under `Result.__lt__` a string/sentinel result is "less"
than EVERY result — numeric or string, so `<` is not irreflexive on the
string class and the relation is a total strict order only on the numeric
results; a numeric result is never below a string one; numeric results
compare by value; and `Result.__eq__` makes any two string results equal. -/
theorem C5_order_characterization : ∀ r1 r2 : Result,
    (r1.value.isStr = true → resultLt r1 r2 = true)
    ∧ (r1.value.isStr = false → r2.value.isStr = true → resultLt r1 r2 = false)
    ∧ (∀ q1 q2 : ℚ, r1.value = .floatV q1 → r2.value = .floatV q2 →
        (resultLt r1 r2 = true ↔ q1 < q2))
    ∧ (r1.value.isStr = true → r2.value.isStr = true → resultEq r1 r2 = true) := by
  intro r1 r2
  refine ⟨fun h1 => by simp [resultLt, h1],
    fun h1 h2 => by simp [resultLt, h1, h2],
    fun q1 q2 h1 h2 => ?_,
    fun h1 h2 => by simp [resultEq, h1, h2]⟩
  have hs1 : r1.value.isStr = false := by rw [h1]; rfl
  have hs2 : r2.value.isStr = false := by rw [h2]; rfl
  simp [resultLt, hs1, hs2, h1, h2, pyValLt, PyVal.isStr]

/-- Witness for C5: a string result is lt-below a numeric one, a numeric
one is not below a string one, 1.0 < 2.0 numerically, and two string
results are eq-equal. -/
theorem C5_order_characterization_witness :
    resultLt ⟨"s", .strV "N/A", 0⟩ ⟨"n", .floatV 1, 2⟩ = true
    ∧ resultLt ⟨"n", .floatV 1, 2⟩ ⟨"s", .strV "N/A", 0⟩ = false
    ∧ (resultLt ⟨"n", .floatV 1, 2⟩ ⟨"m", .floatV 2, 2⟩ = true ↔ (1:ℚ) < 2)
    ∧ resultEq ⟨"s", .strV "N/A", 0⟩ ⟨"t", .strV "nope", 0⟩ = true := by
  refine ⟨(C5_order_characterization _ _).1 rfl,
    (C5_order_characterization _ _).2.1 rfl rfl,
    (C5_order_characterization _ ⟨"m", .floatV 2, 2⟩).2.2.1 1 2 rfl rfl,
    (C5_order_characterization _ _).2.2.2 rfl rfl⟩

/-- C9: rendering the single group n0 (ids [1], mu = 0.1, "r avg" = 5.0
at precision 2) against registries params=[mu], results=["r avg"]
produces exactly the claimed CSV header and row. -/
theorem C9_csv_render :
    SGroup.get_csv_str_header ["mu"] ["r avg"] [] = "name;slurm_ids;;mu;;r avg;"
    ∧ SGroup.get_csv_str
        { name := "n0", ids := [1], params := [("mu", .floatV (1/10))],
          results := [("r avg", ⟨"r avg", .floatV 5, 2⟩)] }
        ["mu"] ["r avg"] [] = .ok "n0;[1];;0.1;;5.00;" := by
  constructor
  · rfl
  · have key : SGroup.get_csv_str
        { name := "n0", ids := [1], params := [("mu", .floatV (1/10))],
          results := [("r avg", ⟨"r avg", .floatV 5, 2⟩)] }
        ["mu"] ["r avg"] []
        = .ok ("n0;[1];;" ++ pyFloatStr ((1:ℚ)/10) ++ ";;" ++ fpFormat 2 5 ++ ";") := rfl
    rw [pyFloatStr_tenth, fpFormat_five] at key
    exact key.trans (by rfl)

/-- Lookup over a list of pairs built by pairing each key with a function
of it. -/
theorem alookup_map_pair {κ β : Type} [DecidableEq κ] (k : κ) (f : κ → β) :
    ∀ l : List κ, alookup k (l.map (fun j => (j, f j)))
      = if k ∈ l then some (f k) else none := by
  intro l
  induction l with
  | nil => simp [alookup]
  | cons j t ih =>
      by_cases h : j = k
      · subst h; simp [alookup]
      · simp [alookup, h, ih, Ne.symm h]

/-- C4 counterexample: requesting job id 5 from a root where no file for
it was located makes `parse_ids` raise an `AssertionError`; the id is not
"simply absent from the result" as the claim states. -/
theorem C4_unlocatable_id_raises :
    parse_ids (fun _ _ => []) [] [5]
      = .error (.assertionError "Can not find files to parse for slurm ids: [5]") := by
  rfl

/-- C4 amended: `parse_ids` is all-or-nothing.  When every requested id is
locatable it returns one entry per requested id (reader output per id);
when any id is unlocatable it raises an `AssertionError` naming exactly
the unlocatable ids, instead of omitting them. -/
theorem C4_parse_ids_all_or_error :
    ∀ (reader : ℤ → List String → Events) (paths : List (ℤ × List String)) (ids : List ℤ),
    ((∀ i ∈ ids, (alookup i paths).isSome) →
      parse_ids reader paths ids
        = .ok (ids.map (fun i => (i, reader i ((alookup i paths).getD [])))))
    ∧ (∀ i ∈ ids, alookup i paths = none →
        parse_ids reader paths ids
          = .error (.assertionError ("Can not find files to parse for slurm ids: "
              ++ pyIntListStr (ids.filter (fun j => (alookup j paths).isNone))))) := by
  intro reader paths ids
  constructor
  · intro hall
    unfold parse_ids
    by_cases hids : ids.length = 0
    · rw [if_pos hids]
      rw [List.length_eq_zero] at hids
      subst hids
      rfl
    · rw [if_neg hids]
      have hfail : ids.filter (fun i => (alookup i paths).isNone) = [] := by
        rw [List.filter_eq_nil]
        intro a ha
        have hs := hall a ha
        intro hc
        rw [Option.isNone_iff_eq_none] at hc
        rw [hc] at hs
        simp at hs
      rw [hfail]
      rfl
  · intro i hi hnone
    unfold parse_ids
    have hlen : ¬ ids.length = 0 := by
      intro h
      rw [List.length_eq_zero] at h
      subst h
      exact absurd hi (List.not_mem_nil i)
    rw [if_neg hlen]
    have hmem : i ∈ ids.filter (fun j => (alookup j paths).isNone) := by
      rw [List.mem_filter]
      exact ⟨hi, by simp [hnone]⟩
    have hfl : ¬ (ids.filter (fun j => (alookup j paths).isNone)).length = 0 := by
      intro h
      rw [List.length_eq_zero] at h
      rw [h] at hmem
      exact absurd hmem (List.not_mem_nil i)
    rw [if_neg hfl]

/-- Witness for C4: with a path table locating id 5, the single id 5 is
parsed and present in the result. -/
theorem C4_parse_ids_witness :
    parse_ids (fun _ _ => [("k", [])]) [(5, ["p"])] [5]
      = .ok [(5, [("k", [])])] := by
  have h := (C4_parse_ids_all_or_error (fun _ _ => [("k", [])]) [(5, ["p"])] [5]).1
    (by decide)
  exact h.trans (by rfl)

/-- C6 counterexample: one group with job id 1, an empty cache, and a
reader whose parsed event dict for id 1 is empty (a located log with no
scalar events).  The first `update` parses id 1; the second `update` —
with no new job ids in between — parses id 1 AGAIN (its cache entry is
empty, so the `force=False` filter keeps it), instead of the zero reader
invocations the claim promises. -/
theorem C6_empty_events_reparsed :
    (updateStepCache (fun _ => []) false [] [1]).1 = [1]
    ∧ (updateStepCache (fun _ => [])
        false (updateStepCache (fun _ => []) false [] [1]).2 [1]).1 = [1] := by
  constructor <;> rfl

/-- C6 amended: with `force=False`, ids whose cached event dict is
non-empty are never handed to the reader — if every id is non-empty in
the cache the reader performs zero invocations; and a second update
performs zero invocations provided the reader returned a NON-EMPTY event
dict for every id of the first round (a located job whose log has no
scalar events is re-parsed every time). -/
theorem C6_cached_ids_not_reparsed :
    ∀ (reader : ℤ → Events) (cache : List (ℤ × Events)) (ids : List ℤ),
    ((∀ i ∈ ids, ((alookup i cache).getD []).length ≠ 0) → newIds false cache ids = [])
    ∧ ((∀ i, (reader i).length ≠ 0) →
        newIds false (updateStepCache reader false cache ids).2 ids = []) := by
  intro reader cache ids
  constructor
  · intro hall
    unfold newIds
    rw [if_neg (by simp)]
    rw [List.filter_eq_nil]
    intro a ha
    simp [hall a ha]
  · intro hr
    unfold newIds
    rw [if_neg (by simp)]
    rw [List.filter_eq_nil]
    intro a ha
    simp only [decide_eq_true_eq]
    intro hlen
    unfold updateStepCache at hlen
    dsimp only at hlen
    rw [alookup_dictUpdate, alookup_map_pair] at hlen
    by_cases hsel : a ∈ newIds false cache ids
    · rw [if_pos hsel] at hlen
      exact hr a (by simpa using hlen)
    · rw [if_neg hsel] at hlen
      simp only [Option.none_or] at hlen
      apply hsel
      unfold newIds
      rw [if_neg (by simp)]
      rw [List.mem_filter]
      exact ⟨ha, by simp [hlen]⟩

/-- Witness for C6: id 1 cached with a non-empty event dict is not
re-selected, and after an update whose reader always returns a non-empty
dict nothing is re-selected either. -/
theorem C6_cached_ids_witness :
    newIds false [(1, [("k", [])])] [1] = []
    ∧ newIds false (updateStepCache (fun _ => [("k", [])]) false [] [1]).2 [1] = [] := by
  refine ⟨(C6_cached_ids_not_reparsed (fun _ => [("k", [])]) [(1, [("k", [])])] [1]).1
      (by decide),
    (C6_cached_ids_not_reparsed (fun _ => [("k", [])]) [] [1]).2 (fun i => by simp)⟩

/-- The missing-id component of the `_values` accumulator: exactly the
ids of data entries lacking the key, in data order. -/
theorem valuesFold_snd (key : String) (lk : Option Nat) :
    ∀ (l : List (ℤ × Events)) (acc : List (List Val) × List ℤ),
    (l.foldl (valuesStep key lk) acc).2
      = acc.2 ++ (l.filter (fun e => (alookup key e.2).isNone)).map Prod.fst := by
  intro l
  induction l with
  | nil => intro acc; simp
  | cons e t ih =>
      intro acc
      rw [List.foldl_cons]
      rcases hk : alookup key e.2 with _ | s
      · rw [ih]
        simp [valuesStep, hk, List.filter_cons]
      · rw [ih]
        simp [valuesStep, hk, List.filter_cons]

/-- The row component of the `_values` accumulator has one row per data
entry that has the key. -/
theorem valuesFold_fst_len (key : String) (lk : Option Nat) :
    ∀ (l : List (ℤ × Events)) (acc : List (List Val) × List ℤ),
    (l.foldl (valuesStep key lk) acc).1.length
      = acc.1.length + (l.filter (fun e => (alookup key e.2).isSome)).length := by
  intro l
  induction l with
  | nil => intro acc; simp
  | cons e t ih =>
      intro acc
      rw [List.foldl_cons]
      rcases hk : alookup key e.2 with _ | s
      · rw [ih]
        simp [valuesStep, hk, List.filter_cons]
      · rw [ih]
        simp [valuesStep, hk, List.filter_cons]
        omega

/-- C10: in `Group._values`, the missing list is exactly the ids that
HAVE a data entry but lack this key (a member id with no stored data
contributes to neither the rows nor the missing list), and the returned
array is absent (`None`) precisely when no data entry has the key; in
particular a group with no stored data at all yields `(None, [])`. -/
theorem C10_values_missing_semantics : ∀ (g : SGroup) (key : String) (lk : Option Nat),
    (g.data = [] → g._values key lk = .ok (none, []))
    ∧ (∀ arr missing, g._values key lk = .ok (arr, missing) →
        missing = (g.data.filter (fun e => (alookup key e.2).isNone)).map Prod.fst
        ∧ (∀ i ∈ missing, ∃ jd, (i, jd) ∈ g.data ∧ alookup key jd = none)
        ∧ (arr = none ↔ ∀ e ∈ g.data, alookup key e.2 = none)) := by
  intro g key lk
  constructor
  · intro hd
    unfold SGroup._values
    rw [hd]
    rfl
  · intro arr missing h
    simp only [SGroup._values] at h
    rcases hck : (g.data.foldl (valuesStep key lk) ([], [])).1.all
        (fun v => v.length = ((g.data.foldl (valuesStep key lk) ([], [])).1.headD []).length)
      with _ | _
    · rw [if_neg (by rw [hck]; exact Bool.false_ne_true)] at h
      exact absurd h (by simp)
    · rw [if_pos hck] at h
      have hh := Except.ok.inj h
      have harr : (if 0 < (g.data.foldl (valuesStep key lk) ([], [])).1.length
          then some (g.data.foldl (valuesStep key lk) ([], [])).1 else none) = arr :=
        congrArg Prod.fst hh
      have hmiss : (g.data.foldl (valuesStep key lk) ([], [])).2 = missing :=
        congrArg Prod.snd hh
      have hsnd := valuesFold_snd key lk g.data ([], [])
      have hfst := valuesFold_fst_len key lk g.data ([], [])
      simp only [List.nil_append] at hsnd
      simp only [List.length_nil, Nat.zero_add] at hfst
      have ha : missing = (g.data.filter (fun e => (alookup key e.2).isNone)).map Prod.fst := by
        rw [← hmiss, hsnd]
      refine ⟨ha, ?_, ?_⟩
      · intro i hi
        rw [ha] at hi
        obtain ⟨e, hef, hfste⟩ := List.mem_map.mp hi
        obtain ⟨hmem, hpred⟩ := List.mem_filter.mp hef
        refine ⟨e.2, ?_, ?_⟩
        · have hpe : (i, e.2) = e := by
            rw [← hfste]
          rw [hpe]
          exact hmem
        · exact Option.isNone_iff_eq_none.mp (by simpa using hpred)
      · rw [← harr]
        by_cases hpos : 0 < (g.data.foldl (valuesStep key lk) ([], [])).1.length
        · rw [if_pos hpos]
          constructor
          · intro hcontra
            exact absurd hcontra (by simp)
          · intro hall
            exfalso
            rw [hfst] at hpos
            rw [List.length_pos] at hpos
            obtain ⟨e, hef⟩ := List.exists_mem_of_ne_nil _ hpos
            obtain ⟨hmem, hpred⟩ := List.mem_filter.mp hef
            rw [hall e hmem] at hpred
            simp at hpred
        · rw [if_neg hpos]
          simp only [true_iff]
          intro e hmem
          rw [hfst] at hpos
          have hflt : (g.data.filter (fun e => (alookup key e.2).isSome)) = [] := by
            rw [← List.length_eq_zero]
            omega
          rw [List.filter_eq_nil] at hflt
          have hns := hflt e hmem
          rcases hx : alookup key e.2 with _ | v
          · rfl
          · rw [hx] at hns
            simp at hns

/-- Witness for C10: a group with no stored data yields `(None, [])`, and
on a group whose only data entry (id 1) lacks the key, the missing list
[1] is exactly the keyless-entry projection. -/
theorem C10_values_witness :
    SGroup._values { name := "g", ids := [1], params := [] } "k" none = .ok (none, [])
    ∧ ([1] : List ℤ)
        = (([(1, [])] : List (ℤ × Events)).filter
            (fun e => (alookup "k" e.2).isNone)).map Prod.fst := by
  refine ⟨(C10_values_missing_semantics { name := "g", ids := [1], params := [] } "k" none).1 rfl, ?_⟩
  exact ((C10_values_missing_semantics
      { name := "g", ids := [1], params := [], data := [(1, [])] } "k" none).2
    none [1] (by rfl)).1

/-- The helper `tableValuesAux` succeeds with one rendered field per key when every
key has a result. -/
theorem tableValuesAux_ok (results : List (String × Result)) :
    ∀ ks : List String, (∀ k ∈ ks, (alookup k results).isSome) →
    ∃ vs, tableValuesAux results ks = .ok vs ∧ vs.length = ks.length := by
  intro ks
  induction ks with
  | nil => intro _; exact ⟨[], rfl, rfl⟩
  | cons k t ih =>
      intro hall
      obtain ⟨r, hr⟩ := Option.isSome_iff_exists.mp (hall k (List.mem_cons_self k t))
      obtain ⟨vs, hvs, hlen⟩ := ih (fun k' hk' => hall k' (List.mem_cons_of_mem k hk'))
      refine ⟨r.str :: vs, ?_, by simp [hlen]⟩
      unfold tableValuesAux
      rw [hr, hvs]
      rfl

/-- The helper `tableValuesAux` raises the `AttributeError` of `None.str` as soon as
any key lacks a result. -/
theorem tableValuesAux_error (results : List (String × Result)) :
    ∀ ks : List String, (∃ k ∈ ks, alookup k results = none) →
    tableValuesAux results ks
      = .error (.attributeError "NoneType object has no attribute str") := by
  intro ks
  induction ks with
  | nil => intro h; obtain ⟨k, hk, _⟩ := h; exact absurd hk (List.not_mem_nil k)
  | cons k t ih =>
      intro h
      unfold tableValuesAux
      rcases hr : alookup k results with _ | r
      · rfl
      · obtain ⟨k', hk', hnone⟩ := h
        rcases List.mem_cons.mp hk' with heq | hmem
        · subst heq
          rw [hr] at hnone
          exact absurd hnone (by simp)
        · rw [ih ⟨k', hmem, hnone⟩]
          rfl

/-- Keys zipped with the fields a map over them produced. -/
theorem zip_map_self {α β : Type} (f : α → β) :
    ∀ l : List α, l.zip (l.map f) = l.map (fun a => (a, f a)) := by
  intro l
  induction l with
  | nil => rfl
  | cons a t ih => simp [ih]

/-- C8 counterexample: a result key registered by some other group but
never computed for THIS group does not render as a blank field — the row
rendering dereferences `None.str` and raises an `AttributeError`. -/
theorem C8_missing_result_key_errors :
    SGroup.get_csv_str { name := "g", ids := [1], params := [] } [] ["r"] []
      = .error (.attributeError "NoneType object has no attribute str") := by
  rfl

/-- C8 amended: the row projection has one field per registered parameter
key after ignore filtering, positionally aligned with the header's
filtered key list, and a parameter key absent from the group renders
blank; the value block likewise has one field per registered result key
when every such key is present in the group's results, but any absent
result key raises the `AttributeError` of `None.str` instead of
rendering blank. -/
theorem C8_row_projection : ∀ (g : SGroup) (preg rreg ignore : List String),
    (g.tableParams preg ignore).length = (filterKeys preg ignore).length
    ∧ (∀ p ∈ (filterKeys preg ignore).zip (g.tableParams preg ignore),
        alookup p.1 g.params = none → p.2 = "")
    ∧ ((∀ k ∈ filterKeys rreg ignore, (alookup k g.results).isSome) →
        ∃ vs, g.tableValues rreg ignore = .ok vs
          ∧ vs.length = (filterKeys rreg ignore).length)
    ∧ ((∃ k ∈ filterKeys rreg ignore, alookup k g.results = none) →
        g.tableValues rreg ignore
          = .error (.attributeError "NoneType object has no attribute str")) := by
  intro g preg rreg ignore
  refine ⟨by simp [SGroup.tableParams], ?_, ?_, ?_⟩
  · intro p hp hnone
    unfold SGroup.tableParams at hp
    rw [zip_map_self] at hp
    obtain ⟨k, hk, hpk⟩ := List.mem_map.mp hp
    subst hpk
    simp only at hnone ⊢
    rw [hnone]
  · intro hall
    exact tableValuesAux_ok g.results (filterKeys rreg ignore) hall
  · intro hex
    exact tableValuesAux_error g.results (filterKeys rreg ignore) hex

/-- Witness for C8: on a group with parameter a=1 (no b) and result "r",
the value block renders with one field, and the positional field of the
absent parameter key b is blank. -/
theorem C8_row_projection_witness :
    (∃ vs, SGroup.tableValues
        { name := "g", ids := [1], params := [("a", PyVal.intV 1)],
          results := [("r", ⟨"r", .strV "v", 0⟩)] } ["r"] [] = .ok vs
      ∧ vs.length = (filterKeys ["r"] []).length)
    ∧ (("b", "") : String × String).2 = "" := by
  refine ⟨(C8_row_projection
      { name := "g", ids := [1], params := [("a", PyVal.intV 1)],
        results := [("r", ⟨"r", .strV "v", 0⟩)] } ["a", "b"] ["r"] []).2.2.1 (by decide),
    (C8_row_projection
      { name := "g", ids := [1], params := [("a", PyVal.intV 1)],
        results := [("r", ⟨"r", .strV "v", 0⟩)] } ["a", "b"] ["r"] []).2.1
      ("b", "") (by decide) (by rfl)⟩

/-- The comparison `groupLe` agrees with `keyRank` on NaN-free keys: `le = true` forces
rank a ≤ rank b and `le = false` forces rank b ≤ rank a (strings are a
collapsed bottom class on which `le` is false both ways). -/
theorem groupLe_rank (s : String) (a b : SGroup)
    (ha : (sortKeyOf s a).value ≠ .nanV) (hb : (sortKeyOf s b).value ≠ .nanV) :
    (groupLe s a b = true → keyRank s a ≤ keyRank s b)
    ∧ (groupLe s a b = false → keyRank s b ≤ keyRank s a) := by
  unfold groupLe keyRank resultLt
  rcases hva : (sortKeyOf s a).value with n | q | _ | sa <;>
    rcases hvb : (sortKeyOf s b).value with m | r | _ | sb <;>
      simp_all [pyValLt, PyVal.isStr]
  · exact fun h => le_of_lt h
  · exact fun h => le_of_lt h
  · exact fun h => le_of_lt h
  · exact fun h => le_of_lt h

/-- Membership through `pyInsert`. -/
theorem mem_pyInsert (le : SGroup → SGroup → Bool) (x : SGroup) :
    ∀ (l : List SGroup) (y : SGroup), y ∈ pyInsert le x l ↔ y = x ∨ y ∈ l := by
  intro l
  induction l with
  | nil => intro y; simp [pyInsert]
  | cons z t ih =>
      intro y
      by_cases h : le x z <;> simp [pyInsert, h, ih y] <;> tauto

/-- Stable insertion preserves rank-sortedness (NaN-free keys). -/
theorem pairwise_pyInsert (s : String) (x : SGroup) :
    ∀ l : List SGroup,
    (sortKeyOf s x).value ≠ .nanV →
    (∀ g ∈ l, (sortKeyOf s g).value ≠ .nanV) →
    l.Pairwise (fun a b => keyRank s a ≤ keyRank s b) →
    (pyInsert (groupLe s) x l).Pairwise (fun a b => keyRank s a ≤ keyRank s b) := by
  intro l
  induction l with
  | nil =>
      intro _ _ _
      simp [pyInsert]
  | cons y t ih =>
      intro hx hl hp
      rw [List.pairwise_cons] at hp
      obtain ⟨hyt, hpt⟩ := hp
      by_cases hle : groupLe s x y
      · simp only [pyInsert]
        rw [if_pos hle]
        have hxy : keyRank s x ≤ keyRank s y :=
          (groupLe_rank s x y hx (hl y (List.mem_cons_self y t))).1 hle
        rw [List.pairwise_cons]
        refine ⟨?_, by rw [List.pairwise_cons]; exact ⟨hyt, hpt⟩⟩
        intro z hz
        rcases List.mem_cons.mp hz with rfl | hzt
        · exact hxy
        · exact le_trans hxy (hyt z hzt)
      · simp only [pyInsert]
        rw [if_neg hle]
        have hyx : keyRank s y ≤ keyRank s x :=
          (groupLe_rank s x y hx (hl y (List.mem_cons_self y t))).2
            (Bool.eq_false_iff.mpr hle)
        rw [List.pairwise_cons]
        refine ⟨?_, ih hx (fun g hg => hl g (List.mem_cons_of_mem y hg)) hpt⟩
        intro z hz
        rcases (mem_pyInsert (groupLe s) x t z).mp hz with rfl | hzt
        · exact hyx
        · exact hyt z hzt

/-- Membership through the stable sort. -/
theorem mem_pySortStable (le : SGroup → SGroup → Bool) :
    ∀ (l : List SGroup) (y : SGroup), y ∈ pySortStable le l ↔ y ∈ l := by
  intro l
  induction l with
  | nil => intro y; simp [pySortStable]
  | cons x t ih =>
      intro y
      have hstep : pySortStable le (x :: t) = pyInsert le x (pySortStable le t) := rfl
      rw [hstep, mem_pyInsert]
      simp [ih y]

/-- The stable sort orders NaN-free groups by rank: strings/missing at
the bottom, numerics nondecreasing. -/
theorem pairwise_pySortStable (s : String) :
    ∀ l : List SGroup,
    (∀ g ∈ l, (sortKeyOf s g).value ≠ .nanV) →
    (pySortStable (groupLe s) l).Pairwise (fun a b => keyRank s a ≤ keyRank s b) := by
  intro l
  induction l with
  | nil => intro _; simp [pySortStable]
  | cons x t ih =>
      intro hl
      have hstep : pySortStable (groupLe s) (x :: t)
          = pyInsert (groupLe s) x (pySortStable (groupLe s) t) := rfl
      rw [hstep]
      exact pairwise_pyInsert s x (pySortStable (groupLe s) t)
        (hl x (List.mem_cons_self x t))
        (fun g hg => hl g (List.mem_cons_of_mem x
          ((mem_pySortStable (groupLe s) t g).mp hg)))
        (ih (fun g hg => hl g (List.mem_cons_of_mem x hg)))

/-- The separator-collapsing pass only drops elements. -/
theorem collapseSeps_sublist :
    ∀ (l : List SGroup) (prev : Bool), (collapseSeps prev l).Sublist l := by
  intro l
  induction l with
  | nil => intro prev; simp [collapseSeps]
  | cons g rest ih =>
      intro prev
      by_cases h : prev && g.isSep
      · simp only [collapseSeps]
        rw [if_pos h]
        exact (ih g.isSep).cons g
      · simp only [collapseSeps]
        rw [if_neg h]
        exact (ih g.isSep).cons₂ g

/-- After collapsing, no two adjacent entries are separators; moreover
with the carry flag set the output never starts with a separator. -/
theorem collapseSeps_chain :
    ∀ (l : List SGroup) (prev : Bool),
    List.Chain' (fun a b => ¬(a.isSep = true ∧ b.isSep = true)) (collapseSeps prev l)
    ∧ (prev = true → ∀ h3 ∈ (collapseSeps prev l).head?, h3.isSep = false) := by
  intro l
  induction l with
  | nil =>
      intro prev
      refine ⟨by simp [collapseSeps], ?_⟩
      intro _ h3 hh3
      simp [collapseSeps] at hh3
  | cons g rest ih =>
      intro prev
      by_cases hskip : prev && g.isSep
      · have hgs : g.isSep = true := by
          cases hp : prev <;> cases hg : g.isSep <;> simp_all
        simp only [collapseSeps]
        rw [if_pos hskip]
        exact ⟨(ih g.isSep).1, fun _ h3 hh3 => (ih g.isSep).2 hgs h3 hh3⟩
      · simp only [collapseSeps]
        rw [if_neg hskip]
        constructor
        · rw [List.chain'_cons']
          refine ⟨?_, (ih g.isSep).1⟩
          intro b hb hcon
          obtain ⟨hgb, hbb⟩ := hcon
          have hbf : b.isSep = false := (ih g.isSep).2 hgb b hb
          rw [hbf] at hbb
          exact Bool.false_ne_true hbb
        · intro hprev h3 hh3
          have hgf : g.isSep = false := by
            rcases hgs : g.isSep
            · rfl
            · exact absurd (by rw [hprev, hgs]; rfl) hskip
          have : g = h3 := by
            simpa [Option.mem_def] using hh3
          rw [← this]
          exact hgf

/-- C7 counterexample: sorting ascending by "r" the row sequence
[g1 (r=1), separator, g2 (r=2)] yields [separator, g1, g2] — the
separator does NOT retain its relative position among the rows (it was
between g1 and g2 and ends up first, because its missing-result sentinel
key sorts as the universal minimum). -/
theorem C7_separator_does_not_stay :
    (sorted_results "r" false true
      [{ name := "g1", ids := [1], params := [],
          results := [("r", ⟨"r", .intV 1, 2⟩)] },
        { name := "sep0", ids := [], params := [], isSep := true },
        { name := "g2", ids := [2], params := [],
          results := [("r", ⟨"r", .intV 2, 2⟩)] }]).map SGroup.name
      = ["sep0", "g1", "g2"] := by
  rfl

/-- C7 amended: with a nonempty sort key and NaN-free keys,
`sorted_results` produces a sequence with no two adjacent separators, in
which EVERY group (separators included — they do not retain their
position) is ordered by its result rank: string/sentinel/missing keys
are the universal minimum, ranks are nondecreasing when ascending and
nonincreasing when descending. -/
theorem C7_sorted_collapsed : ∀ (s : String) (desc : Bool) (gs : List SGroup),
    0 < s.length →
    (∀ g ∈ gs, (sortKeyOf s g).value ≠ PyVal.nanV) →
    List.Chain' (fun a b => ¬(a.isSep = true ∧ b.isSep = true))
      (sorted_results s desc true gs)
    ∧ (desc = false →
        (sorted_results s desc true gs).Pairwise
          (fun a b => keyRank s a ≤ keyRank s b))
    ∧ (desc = true →
        (sorted_results s desc true gs).Pairwise
          (fun a b => keyRank s b ≤ keyRank s a)) := by
  intro s desc gs hs hnn
  have hout : sorted_results s desc true gs
      = collapseSeps false (pySorted (groupLe s) desc gs) := by
    unfold sorted_results
    rw [if_pos hs]
    rfl
  rw [hout]
  refine ⟨(collapseSeps_chain (pySorted (groupLe s) desc gs) false).1, ?_, ?_⟩
  · intro hdesc
    subst hdesc
    have hsorted : (pySortStable (groupLe s) gs).Pairwise
        (fun a b => keyRank s a ≤ keyRank s b) :=
      pairwise_pySortStable s gs hnn
    have hsub := collapseSeps_sublist (pySorted (groupLe s) false gs) false
    have : pySorted (groupLe s) false gs = pySortStable (groupLe s) gs := by
      unfold pySorted
      rfl
    rw [this] at hsub ⊢
    exact hsorted.sublist hsub
  · intro hdesc
    subst hdesc
    have hnn' : ∀ g ∈ gs.reverse, (sortKeyOf s g).value ≠ PyVal.nanV := by
      intro g hg
      exact hnn g (List.mem_reverse.mp hg)
    have hsorted : (pySortStable (groupLe s) gs.reverse).Pairwise
        (fun a b => keyRank s a ≤ keyRank s b) :=
      pairwise_pySortStable s gs.reverse hnn'
    have hrev : (pySorted (groupLe s) true gs).Pairwise
        (fun a b => keyRank s b ≤ keyRank s a) := by
      unfold pySorted
      rw [if_pos rfl]
      rw [List.pairwise_reverse]
      exact hsorted
    exact hrev.sublist (collapseSeps_sublist (pySorted (groupLe s) true gs) false)

/-- Witness for C7: the three-row instance of the counterexample
satisfies the amended ordering facts. -/
theorem C7_sorted_collapsed_witness :
    List.Chain' (fun a b => ¬(a.isSep = true ∧ b.isSep = true))
      (sorted_results "r" false true
        [{ name := "g1", ids := [1], params := [],
            results := [("r", ⟨"r", .intV 1, 2⟩)] },
          { name := "sep0", ids := [], params := [], isSep := true },
          { name := "g2", ids := [2], params := [],
            results := [("r", ⟨"r", .intV 2, 2⟩)] }])
    ∧ (false = false →
        (sorted_results "r" false true
          [{ name := "g1", ids := [1], params := [],
              results := [("r", ⟨"r", .intV 1, 2⟩)] },
            { name := "sep0", ids := [], params := [], isSep := true },
            { name := "g2", ids := [2], params := [],
              results := [("r", ⟨"r", .intV 2, 2⟩)] }]).Pairwise
          (fun a b => keyRank "r" a ≤ keyRank "r" b))
    ∧ (false = true →
        (sorted_results "r" false true
          [{ name := "g1", ids := [1], params := [],
              results := [("r", ⟨"r", .intV 1, 2⟩)] },
            { name := "sep0", ids := [], params := [], isSep := true },
            { name := "g2", ids := [2], params := [],
              results := [("r", ⟨"r", .intV 2, 2⟩)] }]).Pairwise
          (fun a b => keyRank "r" b ≤ keyRank "r" a)) :=
  C7_sorted_collapsed "r" false
    [{ name := "g1", ids := [1], params := [],
        results := [("r", ⟨"r", .intV 1, 2⟩)] },
      { name := "sep0", ids := [], params := [], isSep := true },
      { name := "g2", ids := [2], params := [],
        results := [("r", ⟨"r", .intV 2, 2⟩)] }]
    (by decide) (by decide)
